import Mathlib

/-!
Verification of the Meta webhook ingestion pipeline of the
meta-api-webhook-skill repository.

The repository contains several near-duplicate Node.js servers.  The
definitions below are a shallow embedding of the JavaScript/TypeScript
sources:

* the unified server embedded in SKILL.md (functions getVerifyTokens,
  getCandidateSecrets, detectWebhookPlatform, handleWebhookVerification,
  handleMetaWebhookEvent, validateSignature, processMetaEntry,
  handleInstagramMessage, handleInstagramComment,
  handleInstagramMessageFieldChange, handleMessengerMessage,
  handleMessengerPostback);
* the environment-configured variants (scripts/server.ts, unnamed/part_003)
  with their getVerifyTokens and handleWebhookVerification;
* the env server of unnamed/part_002 (verifySignature used as the
  express.json verify callback, GET /webhook, POST /webhook);
* the variant of unnamed/part_004 (handleMetaWebhookEvent that routes every
  reply to the first messaging sender of the first entry).

JavaScript strings are modelled as Lean strings (sequences of Unicode code
points).  The JS string length (UTF-16 code units) and the Buffer byte
length (UTF-8) are modelled explicitly, because crypto.timingSafeEqual
compares Buffers and throws when their byte lengths differ.  Fallible JS
code is modelled with Except Unit (a thrown TypeError/RangeError is
Except.error ()).  The HMAC-SHA256 hex digest is an opaque parameter
hmac : String -> String -> String; the theorems assume only what is true of
the real digest: it is 64 ASCII hex characters.  Network sends, logging and
clock reads are not modelled; the model records, in order, the outbound
calls (OpenClaw hook invocations / Graph API sends) that the code makes.
-/

namespace MetaWebhook

/-! ### JavaScript string primitives -/

/-- JS `a || d` for an optional string: the default is used when the value
is absent or empty (both are falsy in JS). -/
def jsOr (o : Option String) (d : String) : String :=
  match o with
  | some s => if s = "" then d else s
  | none => d

/-- JS truthiness of an optional string: present and nonempty. -/
def jsTruthy : Option String → Bool
  | some s => s != ""
  | none => false

/-- Number of UTF-16 code units a character occupies (JS String.length
counts these). -/
def charW16 (c : Char) : Nat :=
  if c.toNat < 0x10000 then 1 else 2

/-- Number of UTF-8 bytes a character occupies (Node Buffer.from uses
UTF-8). -/
def charW8 (c : Char) : Nat :=
  if c.toNat < 0x80 then 1
  else if c.toNat < 0x800 then 2
  else if c.toNat < 0x10000 then 3
  else 4

/-- JS String.length of a string: total UTF-16 code units. -/
def utf16Len (s : String) : Nat :=
  (s.data.map charW16).sum

/-- Byte length of the UTF-8 encoding of a string. -/
def utf8Len (s : String) : Nat :=
  (s.data.map charW8).sum

/-- All characters are ASCII (single UTF-8 byte, single UTF-16 unit). -/
def asciiB (s : String) : Bool :=
  s.data.all (fun c => c.toNat < 128)

/-- Keep the first occurrence of each element, preserving order; this is
the behaviour of iterating a JS Set built by insertion. -/
def dedupFirstAux (seen : List String) : List String → List String
  | [] => []
  | x :: xs =>
    if x ∈ seen then dedupFirstAux seen xs
    else x :: dedupFirstAux (x :: seen) xs

/-- JS `Array.from(new Set(l))`: deduplicate keeping first occurrences. -/
def dedupFirst (l : List String) : List String :=
  dedupFirstAux [] l

/-! ### A concrete stand-in digest function for witnesses

The theorems are stated for an arbitrary digest function that returns
64 ASCII characters, which is true of the hex-encoded HMAC-SHA256.  The
function below is a concrete such function used to instantiate witnesses
and counterexamples; it is a simple rolling hash printed as 64 hex
digits. -/

def hexDigit (n : Nat) : Char :=
  "0123456789abcdef".data.getD n '0'

def hex64 (n : Nat) : List Char :=
  (List.range 64).map (fun i => hexDigit ((n / 16 ^ (63 - i)) % 16))

def polyHash (s : String) : Nat :=
  s.data.foldl (fun a c => (a * 131 + c.toNat) % (2 ^ 64)) 7

def testHmac (secret body : String) : String :=
  String.mk (hex64 (polyHash (secret ++ "|" ++ body)))

/-- The property of the real hex-encoded HMAC-SHA256 digest that the
pipeline relies on: 64 characters, all ASCII. -/
def hmacWf (hmac : String → String → String) : Prop :=
  ∀ s b, (hmac s b).data.length = 64 ∧ asciiB (hmac s b) = true

/-! ### Signature validation (SKILL.md unified server)

Source (SKILL.md server.js):

  function validateSignature(payload, signature, appSecret) \x7b
    if (!signature || !appSecret || !payload) return false;
    const expectedSignature = "sha256=" + crypto
      .createHmac("sha256", appSecret).update(payload).digest("hex");
    if (signature.length !== expectedSignature.length) return false;
    return crypto.timingSafeEqual(
      Buffer.from(signature), Buffer.from(expectedSignature));
  \x7d

payload is the raw request Buffer (truthy whenever present, even when
empty), signature and appSecret are strings (falsy when empty).
signature.length compares UTF-16 units; Buffer.from re-encodes to UTF-8
and crypto.timingSafeEqual throws a RangeError when the byte lengths
differ. -/
def validateSignature (hmac : String → String → String)
    (payload signature appSecret : Option String) : Except Unit Bool :=
  match payload, signature, appSecret with
  | some body, some sig, some secret =>
    if sig = "" ∨ secret = "" then .ok false
    else
      let expected := "sha256=" ++ hmac secret body
      if utf16Len sig ≠ utf16Len expected then .ok false
      else if utf8Len sig ≠ utf8Len expected then .error ()
      else .ok (sig == expected)
  | _, _, _ => .ok false

/-- The OR over candidate secrets in handleMetaWebhookEvent (SKILL.md):
candidateSecrets.some((secret) => validateSignature(rawBody, signature,
secret)).  Array.prototype.some short-circuits and a thrown error
propagates. -/
def verifyAny (hmac : String → String → String)
    (payload signature : Option String) : List String → Except Unit Bool
  | [] => .ok false
  | k :: rest =>
    match validateSignature hmac payload signature (some k) with
    | .error e => .error e
    | .ok true => .ok true
    | .ok false => verifyAny hmac payload signature rest

/-! ### Configuration and credential resolver (SKILL.md unified server) -/

/-- The meta section of config.json: optional global appSecret/verifyToken
and optional per-platform overrides.  A field is absent (undefined) or a
string; empty strings are falsy in the truthiness guards of the source. -/
structure MetaConfig where
  appSecret : Option String
  instagramAppSecret : Option String
  messengerAppSecret : Option String
  verifyToken : Option String
  instagramVerifyToken : Option String
  messengerVerifyToken : Option String
deriving DecidableEq

inductive Platform where
  | instagram
  | messenger
deriving DecidableEq, Repr

/-- JS truthiness filter on an optional config string: yields the value
only when present and nonempty. -/
def optTruthy : Option String → Option String
  | some s => if s = "" then none else some s
  | none => none

/-- getVerifyTokens of the SKILL.md server: a Set collecting the global,
instagram and messenger verifyToken fields, each added only when truthy. -/
def getVerifyTokens (c : MetaConfig) : List String :=
  dedupFirst ((optTruthy c.verifyToken).toList ++
    (optTruthy c.instagramVerifyToken).toList ++
    (optTruthy c.messengerVerifyToken).toList)

/-- getCandidateSecrets of the SKILL.md server, literally following the
push order of the source: the global appSecret first, then the branch for
the platform matching the argument, then the branches for the platforms
not matching it; finally filter(Boolean) and Set deduplication. -/
def getCandidateSecrets (c : MetaConfig) (p : Platform) : List String :=
  let secrets :=
    (optTruthy c.appSecret).toList ++
    (if p = .instagram then (optTruthy c.instagramAppSecret).toList else []) ++
    (if p = .messenger then (optTruthy c.messengerAppSecret).toList else []) ++
    (if p ≠ .instagram then (optTruthy c.instagramAppSecret).toList else []) ++
    (if p ≠ .messenger then (optTruthy c.messengerAppSecret).toList else [])
  dedupFirst (secrets.filter (fun s => s != ""))

/-- detectWebhookPlatform: pure lookup on the payload object field. -/
def detectWebhookPlatform (objectField : Option String) : Option Platform :=
  if objectField = some "instagram" then some .instagram
  else if objectField = some "page" then some .messenger
  else none

/-! ### Inbound payload data model

JS objects with optional fields; absent = Option.none.  Only the fields
the servers read are modelled. -/

structure WithId where
  id : Option String
deriving DecidableEq

structure MsgBody where
  mid : Option String
  text : Option String
deriving DecidableEq

structure PostbackBody where
  title : Option String
  payload : Option String
deriving DecidableEq

structure MsgEvent where
  sender : Option WithId
  recipient : Option WithId
  timestamp : Option Nat
  message : Option MsgBody
  postback : Option PostbackBody
  hasRead : Bool
  hasDelivery : Bool
deriving DecidableEq

structure FromObj where
  id : Option String
  username : Option String
deriving DecidableEq

/-- A change value: the union of the fields read by the comments handler
(fromUser models the JS field named from, cid models the JS field named
id) and by the messages-field handler. -/
structure ChangeValue where
  fromUser : Option FromObj
  text : Option String
  cid : Option String
  media : Option WithId
  sender : Option WithId
  recipient : Option WithId
  timestamp : Option Nat
  message : Option MsgBody
deriving DecidableEq

structure ChangeEvent where
  field : Option String
  value : Option ChangeValue
deriving DecidableEq

structure Entry where
  messaging : Option (List MsgEvent)
  changes : Option (List ChangeEvent)
deriving DecidableEq

structure JPayload where
  object : Option String
  entry : Option (List Entry)
deriving DecidableEq

/-! ### Event normalization and forwarding (SKILL.md unified server)

A Forward records one payload handed to forwardToOpenClaw: the platform,
the event type, and the event fields that the source copies out of the
inbound item.  Clock reads (receivedAt, Date.now timestamps) and the
constant callback URLs/tokens are not recorded.  The text slot carries the
primary text of the event: message text defaulted to the empty string,
comment text as-is (the comment handler applies no default), or the
postback title. -/
structure Forward where
  platform : Platform
  ftype : String
  senderId : Option String
  username : Option String
  mid : Option String
  text : Option String
  convId : Option String
  pageId : Option String
deriving DecidableEq

/-- handleInstagramMessage (SKILL.md): reads event.sender.id,
event.message.mid, event.message.text || two-quote default,
event.recipient.id; a missing sender or recipient object makes the
property access throw a TypeError. -/
def handleInstagramMessage (ev : MsgEvent) : Except Unit Forward :=
  match ev.sender, ev.recipient, ev.message with
  | some s, some r, some m =>
    .ok { platform := .instagram, ftype := "message", senderId := s.id,
          username := none, mid := m.mid, text := some (m.text.getD ""),
          convId := s.id, pageId := r.id }
  | _, _, _ => .error ()

/-- handleMessengerMessage (SKILL.md). -/
def handleMessengerMessage (ev : MsgEvent) : Except Unit Forward :=
  match ev.sender, ev.recipient, ev.message with
  | some s, some r, some m =>
    .ok { platform := .messenger, ftype := "message", senderId := s.id,
          username := none, mid := m.mid, text := some (m.text.getD ""),
          convId := s.id, pageId := r.id }
  | _, _, _ => .error ()

/-- handleMessengerPostback (SKILL.md): reads event.postback.title,
event.postback.payload, event.sender.id, event.recipient.id. -/
def handleMessengerPostback (ev : MsgEvent) : Except Unit Forward :=
  match ev.sender, ev.recipient, ev.postback with
  | some s, some r, some pb =>
    .ok { platform := .messenger, ftype := "postback", senderId := s.id,
          username := none, mid := none, text := pb.title,
          convId := s.id, pageId := r.id }
  | _, _, _ => .error ()

/-- handleInstagramComment (SKILL.md): reads commentData.from.id,
commentData.from.username, commentData.id, commentData.text,
commentData.media.id; an absent value, from or media object makes the
property access throw. -/
def handleInstagramComment (v : Option ChangeValue) : Except Unit Forward :=
  match v with
  | none => .error ()
  | some cv =>
    match cv.fromUser, cv.media with
    | some f, some med =>
      .ok { platform := .instagram, ftype := "comment", senderId := f.id,
            username := f.username, mid := cv.cid, text := cv.text,
            convId := med.id, pageId := none }
    | _, _ => .error ()

/-- handleInstagramMessageFieldChange (SKILL.md): the only handler that
guards its nested accesses; it returns without forwarding when value,
value.sender, value.recipient or value.message is absent, otherwise it
re-invokes handleInstagramMessage on a synthetic messaging event. -/
def handleInstagramMessageFieldChange (v : Option ChangeValue) :
    Except Unit (List Forward) :=
  match v with
  | none => .ok []
  | some cv =>
    match cv.sender, cv.recipient, cv.message with
    | some s, some r, some m =>
      (handleInstagramMessage
        { sender := some s, recipient := some r,
          timestamp := some (cv.timestamp.getD 0),
          message := some { mid := m.mid, text := some (m.text.getD "") },
          postback := none, hasRead := false, hasDelivery := false }).map
        (fun f => [f])
    | _, _, _ => .ok []

/-- One step of the instagram messaging loop of processMetaEntry:
the loop forwards only events carrying a message object. -/
def msgStepIG (ev : MsgEvent) : Except Unit (List Forward) :=
  if ev.message.isSome then (handleInstagramMessage ev).map (fun f => [f])
  else .ok []

/-- One step of the instagram changes loop of processMetaEntry. -/
def chStepIG (ch : ChangeEvent) : Except Unit (List Forward) :=
  if ch.field = some "comments" then
    (handleInstagramComment ch.value).map (fun f => [f])
  else if ch.field = some "messages" then
    handleInstagramMessageFieldChange ch.value
  else .ok []

/-- One step of the messenger messaging loop of processMetaEntry:
message first, else postback, else nothing. -/
def msgStepMS (ev : MsgEvent) : Except Unit (List Forward) :=
  if ev.message.isSome then (handleMessengerMessage ev).map (fun f => [f])
  else if ev.postback.isSome then
    (handleMessengerPostback ev).map (fun f => [f])
  else .ok []

/-- Run a sequential await-loop over items: outputs accumulate in order
until a step throws; the throw aborts the rest of the loop and is
reported alongside the outputs already produced. -/
def runSeq {α β : Type} (f : α → Except Unit (List β)) :
    List α → List β × Option Unit
  | [] => ([], none)
  | x :: xs =>
    match f x with
    | .error e => ([], some e)
    | .ok out =>
      let r := runSeq f xs
      (out ++ r.1, r.2)

/-- Run a sequential loop whose steps already report (outputs, thrown). -/
def runSteps {α β : Type} (g : α → List β × Option Unit) :
    List α → List β × Option Unit
  | [] => ([], none)
  | x :: xs =>
    let r := g x
    match r.2 with
    | some e => (r.1, some e)
    | none =>
      let rs := runSteps g xs
      (r.1 ++ rs.1, rs.2)

/-- processMetaEntry (SKILL.md): instagram runs the messaging loop and
then the changes loop; messenger runs only the messaging loop.  A thrown
TypeError aborts the remainder of the entry. -/
def processMetaEntry (p : Platform) (e : Entry) : List Forward × Option Unit :=
  match p with
  | .instagram =>
    let rm := runSeq msgStepIG (e.messaging.getD [])
    match rm.2 with
    | some err => (rm.1, some err)
    | none =>
      let rc := runSeq chStepIG (e.changes.getD [])
      (rm.1 ++ rc.1, rc.2)
  | .messenger => runSeq msgStepMS (e.messaging.getD [])

/-- Result of one POST to the unified SKILL.md endpoint: the HTTP status
(sent before any processing), the ordered forwards to OpenClaw, and
whether the entry-processing loop threw (the top-level catch swallows the
error after logging). -/
structure SkillOut where
  status : Nat
  forwards : List Forward
  err : Option Unit
deriving DecidableEq

/-- handleMetaWebhookEvent (SKILL.md): respond 200 immediately; detect the
platform and return when unsupported; evaluate the signature against every
candidate secret and return when none matches; otherwise process each
entry in order. -/
def handleMetaWebhookEvent (hmac : String → String → String)
    (c : MetaConfig) (rawBody signature : Option String)
    (p : JPayload) : SkillOut :=
  match detectWebhookPlatform p.object with
  | none => { status := 200, forwards := [], err := none }
  | some pf =>
    match verifyAny hmac rawBody signature (getCandidateSecrets c pf) with
    | .error _ => { status := 200, forwards := [], err := some () }
    | .ok false => { status := 200, forwards := [], err := none }
    | .ok true =>
      let r := runSteps (processMetaEntry pf) (p.entry.getD [])
      { status := 200, forwards := r.1, err := r.2 }

/-! ### GET verification handlers -/

/-- handleWebhookVerification (SKILL.md, config variant): 200 echoing the
challenge when mode is subscribe and the token is in the verify-token set,
else 403 Forbidden.  Set.has(undefined) is false, so an absent token never
matches. -/
def handleWebhookVerification (c : MetaConfig)
    (mode token challenge : Option String) : Nat × Option String :=
  if mode = some "subscribe" ∧ ∃ t ∈ getVerifyTokens c, token = some t then
    (200, challenge)
  else (403, some "Forbidden")

/-- Environment variables read by the env-configured variants
(scripts/server.ts uses META_VERIFY_TOKEN and INSTAGRAM_ACCESS_TOKEN,
unnamed/part_003 and part_004 use META_VERIFY_TOKEN and
META_ACCESS_TOKEN). -/
structure EnvCfg where
  metaVerifyToken : Option String
  accessToken : Option String
deriving DecidableEq

/-- getVerifyTokens of the env variants: both constants are defaulted to
the empty string at load (process env read with a two-quote fallback) and
both are added to the Set unconditionally. -/
def getVerifyTokensEnv (env : EnvCfg) : List String :=
  dedupFirst [jsOr env.metaVerifyToken "", jsOr env.accessToken ""]

/-- handleWebhookVerification of the env variants. -/
def handleWebhookVerificationEnv (env : EnvCfg)
    (mode token challenge : Option String) : Nat × Option String :=
  if mode = some "subscribe" ∧ ∃ t ∈ getVerifyTokensEnv env, token = some t then
    (200, challenge)
  else (403, some "Forbidden")

/-- The GET /webhook route of unnamed/part_002: when mode and token are
both truthy, 200 with the challenge iff mode is subscribe and token
strictly equals META_VERIFY_TOKEN, else 403; when either is absent or
empty, 400. -/
def part002Get (verifyTok : Option String)
    (mode token challenge : Option String) : Nat × Option String :=
  if jsTruthy mode = true ∧ jsTruthy token = true then
    if mode = some "subscribe" ∧ token = verifyTok then (200, challenge)
    else (403, none)
  else (400, none)

/-! ### The unnamed/part_002 POST pipeline -/

/-- verifySignature of unnamed/part_002.  It returns false when the header
is absent, splits the header on the sha256= tag, computes the expected
digest and compares with a plain strict equality.  crypto.createHmac
throws a TypeError when META_APP_SECRET is undefined.  The split index 1
is the text between the first and second occurrence of the tag, or
undefined when the tag does not occur. -/
def findSub (sep : List Char) : List Char → Option Nat
  | [] => if sep = [] then some 0 else none
  | c :: t =>
    if sep.isPrefixOf (c :: t) then some 0
    else (findSub sep t).map (· + 1)

def splitIndexOne (sep s : List Char) : Option (List Char) :=
  match findSub sep s with
  | none => none
  | some i =>
    let rest := s.drop (i + sep.length)
    match findSub sep rest with
    | none => some rest
    | some j => some (rest.take j)

def verifySignature (hmac : String → String → String)
    (appSecret : Option String) (signature : Option String)
    (rawBody : String) : Except Unit Bool :=
  match signature with
  | none => .ok false
  | some sig =>
    if sig = "" then .ok false
    else
      let sigHash := splitIndexOne "sha256=".data sig.data
      match appSecret with
      | none => .error ()
      | some secret => .ok (sigHash = some (hmac secret rawBody).data)

/-- One OpenClaw hook invocation made by unnamed/part_002: every messaging
event and every change event of a processed entry produces one call. -/
structure HookCall where
  etype : String
  senderId : Option String
  messageType : Option String
  changedField : Option String
deriving DecidableEq

/-- handleMessagingEvent of unnamed/part_002: classify the event by the
first populated tag and invoke the hook; an event with no known tag is
still forwarded, with no messageType. -/
def handleMessagingEvent (ev : MsgEvent) : HookCall :=
  { etype := "messaging", senderId := ev.sender.bind (fun s => s.id),
    messageType :=
      if ev.message.isSome then some "message"
      else if ev.postback.isSome then some "postback"
      else if ev.hasRead then some "read"
      else if ev.hasDelivery then some "delivery"
      else none,
    changedField := none }

/-- handleChangeEvent of unnamed/part_002. -/
def handleChangeEvent (ch : ChangeEvent) : HookCall :=
  { etype := "change", senderId := none, messageType := none,
    changedField := ch.field }

structure P2Out where
  status : Nat
  hooks : List HookCall
  err : Option Unit
deriving DecidableEq

/-- The POST /webhook pipeline of unnamed/part_002.  The route is mounted
as express.json with verifySignature as the verify option.  body-parser
aborts the request with 403 only when the verify callback throws; a
returned value, including false, is ignored and the route handler runs.
The handler responds 200, then processes every entry when the object is
page or instagram; iterating an absent entry array throws, which the
handler catch swallows after the 200 was sent.  Hook-invocation failures
are caught inside the per-event handlers and do not stop the loops. -/
def part002Post (hmac : String → String → String)
    (appSecret : Option String) (rawBody : String)
    (signature : Option String) (body : JPayload) : P2Out :=
  match verifySignature hmac appSecret signature rawBody with
  | .error _ => { status := 403, hooks := [], err := none }
  | .ok _ =>
    if body.object = some "page" ∨ body.object = some "instagram" then
      match body.entry with
      | none => { status := 200, hooks := [], err := some () }
      | some entries =>
        { status := 200,
          hooks := entries.foldl (fun acc e =>
            acc ++ (e.messaging.getD []).map handleMessagingEvent
                ++ (e.changes.getD []).map handleChangeEvent) [],
          err := none }
    else { status := 200, hooks := [], err := none }

/-! ### The unnamed/part_004 variant -/

/-- The sender computed once per request by the part_004 handler:
entries[0]?.messaging?.[0]?.sender?.id with an unknown fallback. -/
def firstSender (p : JPayload) : String :=
  jsOr ((p.entry.getD []).head?.bind (fun e =>
    e.messaging.bind (fun ms => ms.head?.bind (fun m =>
      m.sender.bind (fun s => s.id))))) "unknown"

/-- JS `if (res) responses.push(res)`: keep only truthy response texts. -/
def okPush : Option String → List String
  | some s => if s = "" then [] else [s]
  | none => []

/-- handleInstagramMessage of unnamed/part_004: skip when a business
account is configured and the recipient id differs (the recipient access
throws when the recipient object is absent); otherwise produce the LLM
response for the message text.  The LLM call catches its own failures and
yields no content. -/
def handleInstagramMessageP4 (llm : String → Option String)
    (busId : String) (ev : MsgEvent) : Except Unit (Option String) :=
  if busId = "" then
    match ev.message with
    | some m => .ok (llm (m.text.getD ""))
    | none => .error ()
  else
    match ev.recipient with
    | none => .error ()
    | some r =>
      if r.id = some busId then
        match ev.message with
        | some m => .ok (llm (m.text.getD ""))
        | none => .error ()
      else .ok none

/-- handleMessengerMessage of unnamed/part_004. -/
def handleMessengerMessageP4 (llm : String → Option String)
    (ev : MsgEvent) : Except Unit (Option String) :=
  match ev.message with
  | some m => .ok (llm (m.text.getD ""))
  | none => .error ()

/-- processMetaEntry of unnamed/part_004: both platform branches loop the
messaging items carrying a message and collect the truthy responses. -/
def processMetaEntryP4 (llm : String → Option String) (busId : String)
    (p : Platform) (e : Entry) : List String × Option Unit :=
  match p with
  | .instagram =>
    runSeq (fun ev =>
      if ev.message.isSome then (handleInstagramMessageP4 llm busId ev).map okPush
      else .ok []) (e.messaging.getD [])
  | .messenger =>
    runSeq (fun ev =>
      if ev.message.isSome then (handleMessengerMessageP4 llm ev).map okPush
      else .ok []) (e.messaging.getD [])

structure P4Out where
  sends : List (String × String)
  err : Option Unit
deriving DecidableEq

/-- handleMetaWebhookEvent of unnamed/part_004: the Graph API recipient of
every send is the firstSender computed once from the whole payload, not
the sender of the event that produced the response.  sendToGraphAPI
catches its own failures, so sends never abort the loop. -/
def part004Handle (llm : String → Option String) (busId : String)
    (p : JPayload) : P4Out :=
  match detectWebhookPlatform p.object with
  | none => { sends := [], err := none }
  | some pf =>
    let sender := firstSender p
    let r := runSteps (fun e =>
      let re := processMetaEntryP4 llm busId pf e
      (re.1.map (fun m => (sender, m)), re.2)) (p.entry.getD [])
    { sends := r.1, err := r.2 }

/-! ### Helper lemmas: strings, ASCII widths, deduplication -/

theorem data_append (a b : String) : (a ++ b).data = a.data ++ b.data := by
  cases a
  cases b
  rfl

theorem string_data_inj {a b : String} (h : a.data = b.data) : a = b := by
  cases a with
  | mk la =>
    cases b with
    | mk lb =>
      cases h
      rfl

theorem ascii_forall {s : String} (h : asciiB s = true) :
    ∀ c ∈ s.data, c.toNat < 128 := by
  intro c hc
  have := (List.all_eq_true.mp h) c hc
  simpa using this

theorem sum_w16_of_ascii :
    ∀ l : List Char, (∀ c ∈ l, c.toNat < 128) → (l.map charW16).sum = l.length := by
  intro l h
  induction l with
  | nil => simp
  | cons c t ih =>
    have hc : charW16 c = 1 := by
      unfold charW16
      exact if_pos (Nat.lt_trans (h c (List.mem_cons_self c t)) (by norm_num))
    simp [hc, ih (fun x hx => h x (List.mem_cons_of_mem c hx)), Nat.add_comm]

theorem sum_w8_of_ascii :
    ∀ l : List Char, (∀ c ∈ l, c.toNat < 128) → (l.map charW8).sum = l.length := by
  intro l h
  induction l with
  | nil => simp
  | cons c t ih =>
    have hc : charW8 c = 1 := by
      unfold charW8
      exact if_pos (h c (List.mem_cons_self c t))
    simp [hc, ih (fun x hx => h x (List.mem_cons_of_mem c hx)), Nat.add_comm]

theorem utf16Len_of_ascii {s : String} (h : asciiB s = true) :
    utf16Len s = s.data.length :=
  sum_w16_of_ascii s.data (ascii_forall h)

theorem utf8Len_of_ascii {s : String} (h : asciiB s = true) :
    utf8Len s = s.data.length :=
  sum_w8_of_ascii s.data (ascii_forall h)

theorem asciiB_append {a b : String} (ha : asciiB a = true)
    (hb : asciiB b = true) : asciiB (a ++ b) = true := by
  unfold asciiB at *
  rw [data_append, List.all_append, ha, hb]
  rfl

theorem tag_append_inj {x y : String}
    (h : "sha256=" ++ x = "sha256=" ++ y) : x = y := by
  have hd := congrArg String.data h
  rw [data_append, data_append] at hd
  exact string_data_inj (List.append_cancel_left hd)

theorem tag_append_ne_empty (x : String) : "sha256=" ++ x ≠ "" := by
  intro h
  have hd := congrArg String.data h
  rw [data_append] at hd
  simp at hd

theorem mem_of_mem_dedupFirstAux {x : String} :
    ∀ (l seen : List String), x ∈ dedupFirstAux seen l → x ∈ l := by
  intro l
  induction l with
  | nil => intro seen h; simp [dedupFirstAux] at h
  | cons y t ih =>
    intro seen h
    unfold dedupFirstAux at h
    by_cases hy : y ∈ seen
    · rw [if_pos hy] at h
      exact List.mem_cons_of_mem y (ih seen h)
    · rw [if_neg hy] at h
      rcases List.mem_cons.mp h with h1 | h2
      · exact h1 ▸ List.mem_cons_self y t
      · exact List.mem_cons_of_mem y (ih (y :: seen) h2)

/-! ### Lemmas about signature validation -/

theorem hmac_tag_len {hmac : String → String → String} (hw : hmacWf hmac)
    (k B : String) : ("sha256=" ++ hmac k B).data.length = 71 := by
  rw [data_append, List.length_append, (hw k B).1]
  decide

theorem hmac_tag_ascii {hmac : String → String → String} (hw : hmacWf hmac)
    (k B : String) : asciiB ("sha256=" ++ hmac k B) = true :=
  asciiB_append (by decide) (hw k B).2

theorem validateSignature_ok_ascii (hmac : String → String → String)
    (hw : hmacWf hmac) (B H k : String) (hH : asciiB H = true)
    (hHne : H ≠ "") (hkne : k ≠ "") :
    validateSignature hmac (some B) (some H) (some k) =
      .ok (H == "sha256=" ++ hmac k B) := by
  have hEascii := hmac_tag_ascii hw k B
  have hElen := hmac_tag_len hw k B
  simp only [validateSignature]
  rw [if_neg (by simp [hHne, hkne])]
  by_cases hlen : utf16Len H = utf16Len ("sha256=" ++ hmac k B)
  · rw [if_neg (not_not_intro hlen)]
    have h8 : utf8Len H = utf8Len ("sha256=" ++ hmac k B) := by
      rw [utf8Len_of_ascii hH, utf8Len_of_ascii hEascii,
        ← utf16Len_of_ascii hH, ← utf16Len_of_ascii hEascii]
      exact hlen
    rw [if_neg (not_not_intro h8)]
  · rw [if_pos hlen]
    have hne : (H == "sha256=" ++ hmac k B) = false := by
      rw [beq_eq_false_iff_ne]
      intro hcontr
      exact hlen (by rw [hcontr])
    rw [hne]

theorem validateSignature_empty_secret (hmac : String → String → String)
    (B H : String) :
    validateSignature hmac (some B) (some H) (some "") = .ok false := by
  simp [validateSignature]

theorem verifyAny_eq_any (hmac : String → String → String)
    (hw : hmacWf hmac) (B H : String) (hH : asciiB H = true)
    (hHne : H ≠ "") :
    ∀ secrets : List String,
      verifyAny hmac (some B) (some H) secrets =
        .ok (secrets.any (fun k => k != "" && (H == "sha256=" ++ hmac k B))) := by
  intro secrets
  induction secrets with
  | nil => rfl
  | cons k rest ih =>
    by_cases hk : k = ""
    · subst hk
      rw [verifyAny, validateSignature_empty_secret]
      simpa using ih
    · rw [verifyAny, validateSignature_ok_ascii hmac hw B H k hH hHne hk]
      cases hbe : (H == "sha256=" ++ hmac k B) with
      | true => simp [hbe, hk]
      | false => simpa [hbe, hk] using ih

theorem hexDigit_ascii (m : Nat) : (hexDigit m).toNat < 128 := by
  have hlt : ∀ m' < 16, (hexDigit m').toNat < 128 := by decide
  by_cases h : m < 16
  · exact hlt m h
  · unfold hexDigit
    rw [List.getD_eq_default]
    · decide
    · simpa using Nat.le_of_not_lt h

theorem testHmac_wf : hmacWf testHmac := by
  intro s b
  refine ⟨?_, ?_⟩
  · show (hex64 (polyHash (s ++ "|" ++ b))).length = 64
    simp [hex64]
  · apply List.all_eq_true.mpr
    intro c hc
    have hc' : c ∈ hex64 (polyHash (s ++ "|" ++ b)) := hc
    rcases (by simpa [hex64] using hc' : ∃ a, a < 64 ∧
        hexDigit (polyHash (s ++ "|" ++ b) / 16 ^ (63 - a) % 16) = c) with ⟨i, _, rfl⟩
    simpa using hexDigit_ascii _

/-- C2: for every raw body B and secret S, when the signature header is
the genuine sha256-tagged digest of B under S and S occurs anywhere in
the candidate list, the OR over candidates in handleMetaWebhookEvent
succeeds; when no candidate secret produces the digest in the header, it
fails with false.  The candidate lists of the resolver never contain the
empty string, which the last conjunct records. -/
theorem c2_signature_or_semantics (hmac : String → String → String)
    (B S : String) (secrets : List String)
    (hw : hmacWf hmac) (hne : "" ∉ secrets) :
    (S ∈ secrets →
      verifyAny hmac (some B) (some ("sha256=" ++ hmac S B)) secrets = .ok true) ∧
    ((∀ k ∈ secrets, hmac k B ≠ hmac S B) →
      verifyAny hmac (some B) (some ("sha256=" ++ hmac S B)) secrets = .ok false) ∧
    (∀ (c : MetaConfig) (p : Platform), "" ∉ getCandidateSecrets c p) := by
  have hH : asciiB ("sha256=" ++ hmac S B) = true := hmac_tag_ascii hw S B
  have hHne : "sha256=" ++ hmac S B ≠ "" := tag_append_ne_empty _
  have hall := verifyAny_eq_any hmac hw B _ hH hHne secrets
  refine ⟨?_, ?_, ?_⟩
  · intro hS
    rw [hall]
    congr 1
    apply List.any_eq_true.mpr
    refine ⟨S, hS, ?_⟩
    have hSne : S ≠ "" := fun h => hne (h ▸ hS)
    simp [hSne]
  · intro hdiff
    rw [hall]
    congr 1
    apply List.any_eq_false.mpr
    intro k hk
    by_cases hk0 : k = ""
    · simp [hk0]
    · have hb : ("sha256=" ++ hmac S B == "sha256=" ++ hmac k B) = false := by
        rw [beq_eq_false_iff_ne]
        intro hc
        exact hdiff k hk (tag_append_inj hc).symm
      simp [hb]
  · intro c p h
    simp only [getCandidateSecrets, dedupFirst] at h
    have h1 := mem_of_mem_dedupFirstAux _ _ h
    have h2 := (List.mem_filter.mp h1).2
    simp at h2

/-- C2 witness: a concrete digest function, body and secret list where the
matching secret sits in second position. -/
theorem c2_signature_or_semantics_witness :
    verifyAny testHmac (some "body") (some ("sha256=" ++ testHmac "k1" "body"))
      ["k2", "k1"] = .ok true :=
  (c2_signature_or_semantics testHmac "body" "k1" ["k2", "k1"] testHmac_wf
    (by decide)).1 (by decide)

/-- A 71-UTF-16-unit header whose last character is non-ASCII: its UTF-8
byte length is 72. -/
def ceNonAsciiSig : String :=
  "sha256=" ++ String.mk (List.replicate 63 '0' ++ ['é'])

/-- C3 counterexample: validateSignature is not total.  On a header of
UTF-16 length 71 containing a non-ASCII character, the length guard
passes but the two Buffers have different byte lengths, so
crypto.timingSafeEqual throws a RangeError instead of returning a
boolean. -/
theorem c3_counterexample :
    validateSignature testHmac (some "b") (some ceNonAsciiSig) (some "s") =
      .error () := by
  rfl

/-- The boolean that validateSignature computes on the inputs where it
does return: false when the header, secret or payload is absent or the
header or secret is empty, and otherwise the strict comparison with the
expected sha256-tagged digest. -/
def validateSignatureOutcome (hmac : String → String → String)
    (payload signature appSecret : Option String) : Bool :=
  match payload, signature, appSecret with
  | some body, some sig, some secret =>
    sig != "" && secret != "" && (sig == "sha256=" ++ hmac secret body)
  | _, _, _ => false

/-- C3 amended: validateSignature is total and fails closed on every
header whose characters are ASCII (in particular absent, empty,
missing-tag, wrong-length or otherwise malformed ASCII headers, and
absent secrets); only a non-ASCII header of matching UTF-16 length makes
it throw, as the counterexample shows. -/
theorem c3_validate_total_on_ascii (hmac : String → String → String)
    (payload signature appSecret : Option String) (hw : hmacWf hmac)
    (hascii : ∀ h, signature = some h → asciiB h = true) :
    validateSignature hmac payload signature appSecret =
      .ok (validateSignatureOutcome hmac payload signature appSecret) := by
  rcases payload with _ | b
  · rcases signature with _ | hsig <;> rcases appSecret with _ | k <;> rfl
  rcases signature with _ | hsig
  · rcases appSecret with _ | k <;> rfl
  rcases appSecret with _ | k
  · rfl
  by_cases hh : hsig = ""
  · subst hh
    simp [validateSignature, validateSignatureOutcome]
  by_cases hk : k = ""
  · subst hk
    rw [validateSignature_empty_secret]
    simp [validateSignatureOutcome, hh]
  · rw [validateSignature_ok_ascii hmac hw b hsig k (hascii hsig rfl) hh hk]
    simp [validateSignatureOutcome, hh, hk]

/-- C3 witness: a malformed ASCII header returns false without throwing. -/
theorem c3_validate_total_on_ascii_witness :
    validateSignature testHmac (some "b") (some "nope") (some "s") =
      .ok (validateSignatureOutcome testHmac (some "b") (some "nope") (some "s")) :=
  c3_validate_total_on_ascii testHmac (some "b") (some "nope") (some "s")
    testHmac_wf (by intro x hx; cases hx; decide)

/-! ### C4: candidate-secret order -/

theorem filter_optTruthy (o : Option String) :
    (optTruthy o).toList.filter (fun s => s != "") = (optTruthy o).toList := by
  rcases o with _ | s
  · rfl
  · show ((if s = "" then none else some s) : Option String).toList.filter
        (fun s => s != "") = ((if s = "" then none else some s) : Option String).toList
    by_cases h : s = ""
    · rw [if_pos h]
      rfl
    · rw [if_neg h]
      simp [h]

/-- The candidate order as claim C4 states it: the appSecret of the
detected platform (if set) first, then the global appSecret (if set),
then the appSecret of every other platform (if set). -/
def claimCandidateOrder (c : MetaConfig) (p : Platform) : List String :=
  (match p with
   | .instagram => c.instagramAppSecret.toList
   | .messenger => c.messengerAppSecret.toList) ++
  c.appSecret.toList ++
  (match p with
   | .instagram => c.messengerAppSecret.toList
   | .messenger => c.instagramAppSecret.toList)

/-- The candidate order the code implements: the global appSecret first,
then the appSecret of the detected platform, then the appSecret of the
other platform, each only when present and nonempty, deduplicated
keeping first occurrences. -/
def amendedCandidateOrder (c : MetaConfig) (p : Platform) : List String :=
  dedupFirst ((optTruthy c.appSecret).toList ++
    (match p with
     | .instagram => (optTruthy c.instagramAppSecret).toList
     | .messenger => (optTruthy c.messengerAppSecret).toList) ++
    (match p with
     | .instagram => (optTruthy c.messengerAppSecret).toList
     | .messenger => (optTruthy c.instagramAppSecret).toList))

/-- A configuration with a global secret and an instagram secret. -/
def conf4 : MetaConfig :=
  { appSecret := some "g", instagramAppSecret := some "i",
    messengerAppSecret := none, verifyToken := none,
    instagramVerifyToken := none, messengerVerifyToken := none }

/-- C4 counterexample: with a global secret g and an instagram secret i,
the resolver returns the global secret first, not the platform-specific
secret first as the claim states. -/
theorem c4_counterexample :
    getCandidateSecrets conf4 .instagram = ["g", "i"] ∧
    claimCandidateOrder conf4 .instagram = ["i", "g"] ∧
    getCandidateSecrets conf4 .instagram ≠ claimCandidateOrder conf4 .instagram := by
  refine ⟨rfl, rfl, ?_⟩
  decide

/-- C4 amended: for every configuration and platform the candidate list
is the global appSecret first (when set and nonempty), then the
appSecret of the detected platform, then that of the other platform,
deduplicated keeping the first occurrence. -/
theorem c4_candidate_order (c : MetaConfig) (p : Platform) :
    getCandidateSecrets c p = amendedCandidateOrder c p := by
  cases p <;>
    simp [getCandidateSecrets, amendedCandidateOrder, List.filter_append,
      filter_optTruthy]

/-! ### C5: GET verification handshake -/

/-- C5 counterexample: the part_002 GET route answers 400, not 403, when
hub.mode and hub.verify_token are absent. -/
theorem c5_counterexample :
    part002Get (some "tok") none none (some "xyz") = (400, none) ∧
    (part002Get (some "tok") none none (some "xyz")).1 ≠ 403 :=
  ⟨rfl, by decide⟩

/-- C5 amended: the config-variant handler responds 200 echoing the
challenge exactly when mode is subscribe and the token is a member of
the resolved verify-token set, and 403 in every other case; the part_002
route behaves this way only when mode and token are both present and
nonempty (its token set being the single META_VERIFY_TOKEN value), and
responds 400 when either is absent or empty. -/
theorem c5_get_verification (c : MetaConfig) (vt : Option String)
    (mode token challenge : Option String) :
    (((handleWebhookVerification c mode token challenge).1 = 200 ∧
      (handleWebhookVerification c mode token challenge).2 = challenge) ↔
      (mode = some "subscribe" ∧ ∃ t ∈ getVerifyTokens c, token = some t)) ∧
    ((handleWebhookVerification c mode token challenge).1 ≠ 200 →
      (handleWebhookVerification c mode token challenge).1 = 403) ∧
    ((jsTruthy mode = true ∧ jsTruthy token = true) →
      (((part002Get vt mode token challenge).1 = 200 ∧
        (part002Get vt mode token challenge).2 = challenge) ↔
        (mode = some "subscribe" ∧ token = vt))) ∧
    ((jsTruthy mode = false ∨ jsTruthy token = false) →
      (part002Get vt mode token challenge).1 = 400) := by
  refine ⟨?_, ?_, ?_, ?_⟩
  · by_cases hcond : mode = some "subscribe" ∧ ∃ t ∈ getVerifyTokens c, token = some t
    · simp [handleWebhookVerification, hcond]
    · simp only [handleWebhookVerification, if_neg hcond]
      constructor
      · intro hc
        exact absurd hc.1 (by decide)
      · intro hc
        exact absurd hc hcond
  · by_cases hcond : mode = some "subscribe" ∧ ∃ t ∈ getVerifyTokens c, token = some t
    · simp [handleWebhookVerification, hcond]
    · simp [handleWebhookVerification, hcond]
  · intro htru
    rw [part002Get, if_pos htru]
    by_cases hcond : mode = some "subscribe" ∧ token = vt
    · simp [hcond]
    · simp only [if_neg hcond]
      constructor
      · intro hc
        exact absurd hc.1 (by decide)
      · intro hc
        exact absurd hc hcond
  · intro hfls
    rw [part002Get, if_neg ?_]
    intro hboth
    rcases hfls with h | h
    · rw [hboth.1] at h
      cases h
    · rw [hboth.2] at h
      cases h

/-- C5 witness: a present, matching token is answered 200 with the
challenge on the part_002 route. -/
theorem c5_get_verification_witness :
    (part002Get (some "tok") (some "subscribe") (some "tok") (some "xyz")).1 = 200 ∧
    (part002Get (some "tok") (some "subscribe") (some "tok") (some "xyz")).2 =
      some "xyz" :=
  ((c5_get_verification conf4 (some "tok") (some "subscribe") (some "tok")
      (some "xyz")).2.2.1 (by decide)).mpr ⟨rfl, rfl⟩

/-! ### C6: platform detection and unsupported payloads -/

/-- C6: detectWebhookPlatform maps instagram to the Instagram platform,
page to the Messenger platform and any other or absent object value to
none; and a POST whose object is unrecognized yields 200, zero forwards
and no thrown error. -/
theorem c6_detect_and_skip :
    detectWebhookPlatform (some "instagram") = some .instagram ∧
    detectWebhookPlatform (some "page") = some .messenger ∧
    (∀ o : Option String, o ≠ some "instagram" → o ≠ some "page" →
      detectWebhookPlatform o = none) ∧
    (∀ (hmac : String → String → String) (c : MetaConfig)
        (rawBody sig : Option String) (p : JPayload),
      detectWebhookPlatform p.object = none →
      handleMetaWebhookEvent hmac c rawBody sig p =
        { status := 200, forwards := [], err := none }) := by
  refine ⟨rfl, rfl, ?_, ?_⟩
  · intro o h1 h2
    unfold detectWebhookPlatform
    rw [if_neg h1, if_neg h2]
  · intro hmac c rawBody sig p h
    unfold handleMetaWebhookEvent
    rw [h]

/-- A payload with an unsupported subscription object. -/
def unsupportedPayload : JPayload :=
  { object := some "whatsapp",
    entry := some [{ messaging := some [], changes := none }] }

/-- C6 witness: a whatsapp-object POST is acknowledged and ignored. -/
theorem c6_detect_and_skip_witness :
    handleMetaWebhookEvent testHmac conf4 (some "RAW") none unsupportedPayload =
      { status := 200, forwards := [], err := none } :=
  c6_detect_and_skip.2.2.2 testHmac conf4 (some "RAW") none unsupportedPayload rfl

/-! ### C7 and C8: loop behaviour of the event normalizer -/

/-- The forward a well-formed instagram messaging item produces. -/
def igFwd (ev : MsgEvent) : Forward :=
  { platform := .instagram, ftype := "message",
    senderId := (ev.sender.getD { id := none }).id, username := none,
    mid := (ev.message.getD { mid := none, text := none }).mid,
    text := some ((ev.message.getD { mid := none, text := none }).text.getD ""),
    convId := (ev.sender.getD { id := none }).id,
    pageId := (ev.recipient.getD { id := none }).id }

/-- A messaging item is safe for the instagram loop: when it carries a
message, its sender and recipient objects are present. -/
def igSafeB (ev : MsgEvent) : Bool :=
  !ev.message.isSome || (ev.sender.isSome && ev.recipient.isSome)

/-- Recognition in the messenger loop: message first, else postback. -/
def recogMS (ev : MsgEvent) : Bool :=
  ev.message.isSome || ev.postback.isSome

def msSafeB (ev : MsgEvent) : Bool :=
  !recogMS ev || (ev.sender.isSome && ev.recipient.isSome)

/-- The forward a recognized, well-formed messenger item produces. -/
def msFwd (ev : MsgEvent) : Forward :=
  if ev.message.isSome then
    { platform := .messenger, ftype := "message",
      senderId := (ev.sender.getD { id := none }).id, username := none,
      mid := (ev.message.getD { mid := none, text := none }).mid,
      text := some ((ev.message.getD { mid := none, text := none }).text.getD ""),
      convId := (ev.sender.getD { id := none }).id,
      pageId := (ev.recipient.getD { id := none }).id }
  else
    { platform := .messenger, ftype := "postback",
      senderId := (ev.sender.getD { id := none }).id, username := none,
      mid := none,
      text := (ev.postback.getD { title := none, payload := none }).title,
      convId := (ev.sender.getD { id := none }).id,
      pageId := (ev.recipient.getD { id := none }).id }

theorem handleInstagramMessage_error (ev : MsgEvent)
    (h : ev.sender = none ∨ ev.recipient = none) :
    handleInstagramMessage ev = .error () := by
  rcases hs : ev.sender with _ | s <;> rcases hr : ev.recipient with _ | r <;>
    rcases hm : ev.message with _ | m <;> simp_all [handleInstagramMessage]

theorem msgStepIG_safe (ev : MsgEvent) (h : igSafeB ev = true) :
    msgStepIG ev = .ok (if ev.message.isSome then [igFwd ev] else []) := by
  rcases hm : ev.message with _ | mb
  · simp [msgStepIG, hm]
  · have h2 : ev.sender.isSome && ev.recipient.isSome := by
      simpa [igSafeB, hm] using h
    rcases hs : ev.sender with _ | s
    · rw [hs] at h2
      simp at h2
    rcases hr : ev.recipient with _ | r
    · rw [hr] at h2
      simp at h2
    simp [msgStepIG, hm, handleInstagramMessage, hs, hr, igFwd, Except.map]

theorem msgStepMS_safe (ev : MsgEvent) (h : msSafeB ev = true) :
    msgStepMS ev = .ok (if recogMS ev then [msFwd ev] else []) := by
  rcases hm : ev.message with _ | mb
  · rcases hp : ev.postback with _ | pb
    · simp [msgStepMS, recogMS, hm, hp]
    · have h2 : ev.sender.isSome && ev.recipient.isSome := by
        simpa [msSafeB, recogMS, hm, hp] using h
      rcases hs : ev.sender with _ | s
      · rw [hs] at h2
        simp at h2
      rcases hr : ev.recipient with _ | r
      · rw [hr] at h2
        simp at h2
      simp [msgStepMS, recogMS, hm, hp, handleMessengerPostback, hs, hr, msFwd,
        Except.map]
  · have h2 : ev.sender.isSome && ev.recipient.isSome := by
      simpa [msSafeB, recogMS, hm] using h
    rcases hs : ev.sender with _ | s
    · rw [hs] at h2
      simp at h2
    rcases hr : ev.recipient with _ | r
    · rw [hr] at h2
      simp at h2
    simp [msgStepMS, recogMS, hm, handleMessengerMessage, hs, hr, msFwd,
      Except.map]

/-- A sequential loop whose every step succeeds produces exactly the
filtered-and-mapped outputs, in input order. -/
theorem runSeq_eq_filterMap {α β : Type} (f : α → Except Unit (List β))
    (p : α → Bool) (g : α → β) :
    ∀ l : List α, (∀ x ∈ l, f x = .ok (if p x then [g x] else [])) →
      runSeq f l = ((l.filter p).map g, none) := by
  intro l
  induction l with
  | nil => intro _; rfl
  | cons x t ih =>
    intro h
    have hx := h x (List.mem_cons_self _ _)
    have ht := ih (fun y hy => h y (List.mem_cons_of_mem _ hy))
    rw [runSeq, hx]
    by_cases hp : p x = true
    · simp [hp, ht, List.filter_cons, List.map_cons]
    · simp only [Bool.not_eq_true] at hp
      simp [hp, ht, List.filter_cons]

/-- Splitting a sequential loop at a point before any throw. -/
theorem runSeq_append {α β : Type} (f : α → Except Unit (List β)) :
    ∀ (l1 l2 : List α), (runSeq f l1).2 = none →
      runSeq f (l1 ++ l2) =
        ((runSeq f l1).1 ++ (runSeq f l2).1, (runSeq f l2).2) := by
  intro l1
  induction l1 with
  | nil => intro l2 _; simp [runSeq]
  | cons x t ih =>
    intro l2 h
    rcases hfx : f x with e | out
    · rw [runSeq, hfx] at h
      simp at h
    · rw [runSeq, hfx] at h
      rw [List.cons_append, runSeq, hfx, runSeq, hfx]
      simp only [] at h ⊢
      rw [ih l2 h]
      simp [List.append_assoc]

/-- Two positions of a list, in order, form a sublist. -/
theorem pair_get_sublist {α : Type} :
    ∀ (l : List α) (i j : Nat) (hi : i < l.length) (hj : j < l.length),
      i < j → List.Sublist [l.get ⟨i, hi⟩, l.get ⟨j, hj⟩] l := by
  intro l
  induction l with
  | nil => intro i j hi _ _; simp at hi
  | cons a t ih =>
    intro i j hi hj hij
    cases i with
    | zero =>
      cases j with
      | zero => exact absurd hij (lt_irrefl 0)
      | succ j' =>
        refine List.Sublist.cons₂ a ?_
        exact List.singleton_sublist.mpr (t.get_mem _ _)
    | succ i' =>
      cases j with
      | zero => exact absurd hij (by omega)
      | succ j' =>
        exact List.Sublist.cons a
          (ih i' j' (Nat.lt_of_succ_lt_succ hi) (Nat.lt_of_succ_lt_succ hj)
            (Nat.lt_of_succ_lt_succ hij))

theorem handleInstagramMessageFieldChange_skip (v : ChangeValue)
    (h : v.sender = none ∨ v.recipient = none ∨ v.message = none) :
    handleInstagramMessageFieldChange (some v) = .ok [] := by
  rcases hs : v.sender with _ | s <;> rcases hr : v.recipient with _ | r <;>
    rcases hm : v.message with _ | m <;>
      simp_all [handleInstagramMessageFieldChange]

/-- A well-formed message event from sender A. -/
def evA : MsgEvent :=
  { sender := some { id := some "A" }, recipient := some { id := some "biz" },
    timestamp := none, message := some { mid := some "m1", text := some "hi" },
    postback := none, hasRead := false, hasDelivery := false }

/-- A well-formed message event from sender B. -/
def evB : MsgEvent :=
  { sender := some { id := some "B" }, recipient := some { id := some "biz" },
    timestamp := none, message := some { mid := some "m2", text := some "yo" },
    postback := none, hasRead := false, hasDelivery := false }

/-- A malformed messaging item: carries a message but no sender object. -/
def evNoSender : MsgEvent :=
  { sender := none, recipient := some { id := some "pg" },
    timestamp := none, message := some { mid := some "mx", text := some "oops" },
    postback := none, hasRead := false, hasDelivery := false }

/-- A well-formed postback event from sender C. -/
def evPB : MsgEvent :=
  { sender := some { id := some "C" }, recipient := some { id := some "biz" },
    timestamp := none, message := none,
    postback := some { title := some "Buy", payload := some "BUY_1" },
    hasRead := false, hasDelivery := false }

/-- A change value with every nested object absent. -/
def emptyChangeValue : ChangeValue :=
  { fromUser := none, text := none, cid := none, media := none,
    sender := none, recipient := none, timestamp := none, message := none }

/-- C7 counterexample: an instagram entry whose first messaging item has
a message but no sender throws at event.sender.id; the well-formed
second item of the same entry is never normalized or forwarded — the
entry produces zero forwards, not one. -/
theorem c7_counterexample :
    processMetaEntry .instagram
        { messaging := some [evNoSender, evA], changes := none } =
      ([], some ()) ∧ igSafeB evA = true :=
  ⟨rfl, rfl⟩

/-- C7 amended: a malformed nested field does not make the normalizer
skip only the offending item.  A messaging item with a message but no
sender or recipient throws a TypeError that aborts the rest of the
entry (items already processed keep their forwards); only the
messages-field change path guards its nested accesses and skips just the
offending value. -/
theorem c7_malformed_aborts_entry :
    (∀ (pre post : List MsgEvent) (ev : MsgEvent)
        (chs : Option (List ChangeEvent)),
      (∀ m ∈ pre, igSafeB m = true) →
      ev.message.isSome = true → (ev.sender = none ∨ ev.recipient = none) →
      processMetaEntry .instagram
          { messaging := some (pre ++ ev :: post), changes := chs } =
        ((pre.filter (fun m => m.message.isSome)).map igFwd, some ())) ∧
    (∀ (v : ChangeValue) (rest : List ChangeEvent),
      (v.sender = none ∨ v.recipient = none ∨ v.message = none) →
      processMetaEntry .instagram
          { messaging := none,
            changes := some ({ field := some "messages", value := some v } :: rest) } =
        processMetaEntry .instagram { messaging := none, changes := some rest }) := by
  constructor
  · intro pre post ev chs hpre hmsg hbad
    have hpre' : runSeq msgStepIG pre =
        ((pre.filter (fun m => m.message.isSome)).map igFwd, none) :=
      runSeq_eq_filterMap _ _ _ pre (fun x hx => msgStepIG_safe x (hpre x hx))
    have hev : msgStepIG ev = .error () := by
      rw [msgStepIG, if_pos hmsg, handleInstagramMessage_error ev hbad]
      rfl
    have hcons : runSeq msgStepIG (ev :: post) = ([], some ()) := by
      rw [runSeq, hev]
    have happ := runSeq_append msgStepIG pre (ev :: post) (by rw [hpre'])
    rw [hpre', hcons] at happ
    simp only [processMetaEntry, Option.getD_some, happ]
    simp
  · intro v rest hbad
    have hch : chStepIG { field := some "messages", value := some v } = .ok [] := by
      simp only [chStepIG]
      rw [if_pos trivial]
      exact handleInstagramMessageFieldChange_skip v hbad
    have hstep : runSeq chStepIG
        ({ field := some "messages", value := some v } :: rest) =
        runSeq chStepIG rest := by
      rw [runSeq, hch]
      simp
    simp only [processMetaEntry, Option.getD_none, Option.getD_some, hstep]

/-- A messages-field change carrying an empty value. -/
def msgsChangeCE : ChangeEvent :=
  { field := some "messages", value := some emptyChangeValue }

/-- C7 witness: concrete instances for both conjuncts of the amended
claim. -/
theorem c7_malformed_aborts_entry_witness :
    processMetaEntry .instagram
        { messaging := some ([evA] ++ evNoSender :: [evB]), changes := none } =
      (([evA].filter (fun m => m.message.isSome)).map igFwd, some ()) ∧
    processMetaEntry .instagram { messaging := none, changes := some [msgsChangeCE] } =
      processMetaEntry .instagram { messaging := none, changes := some [] } :=
  ⟨c7_malformed_aborts_entry.1 [evA] [evB] evNoSender none (by decide) (by decide)
      (Or.inl rfl),
    c7_malformed_aborts_entry.2 emptyChangeValue [] (Or.inl rfl)⟩

/-- C8: the messenger messaging loop of processMetaEntry preserves input
order.  Under well-formedness of the items, the forwards are exactly the
recognized items filtered and mapped in input order; and for any two
recognized positions i before j, the pair of their forwards occurs as an
ordered sublist of the produced sequence. -/
theorem c8_order_preserved (msgs : List MsgEvent)
    (h : ∀ m ∈ msgs, msSafeB m = true) :
    (runSeq msgStepMS msgs).1 = (msgs.filter recogMS).map msFwd ∧
    ∀ (i j : Nat) (hi : i < msgs.length) (hj : j < msgs.length),
      i < j → recogMS (msgs.get ⟨i, hi⟩) = true →
      recogMS (msgs.get ⟨j, hj⟩) = true →
      List.Sublist [msFwd (msgs.get ⟨i, hi⟩), msFwd (msgs.get ⟨j, hj⟩)]
        (runSeq msgStepMS msgs).1 := by
  have h1 : runSeq msgStepMS msgs = ((msgs.filter recogMS).map msFwd, none) :=
    runSeq_eq_filterMap _ _ _ msgs (fun x hx => msgStepMS_safe x (h x hx))
  refine ⟨by rw [h1], ?_⟩
  intro i j hi hj hij ri rj
  rw [h1]
  have hsub := pair_get_sublist msgs i j hi hj hij
  have hf := hsub.filter recogMS
  rw [List.filter_cons_of_pos, List.filter_cons_of_pos, List.filter_nil] at hf
  · exact hf.map msFwd
  · exact rj
  · exact ri

/-- C8 witness: a message followed by a postback, both recognized, keep
their order in the forwards. -/
theorem c8_order_preserved_witness :
    List.Sublist [msFwd evA, msFwd evPB] (runSeq msgStepMS [evA, evPB]).1 := by
  have h := (c8_order_preserved [evA, evPB] (by decide)).2 0 1 (by decide)
    (by decide) (by decide) (by decide) (by decide)
  simpa using h

/-! ### C9: reply routing in unnamed/part_004 -/

theorem mem_runSteps {α β : Type} (g : α → List β × Option Unit) :
    ∀ (l : List α) (b : β), b ∈ (runSteps g l).1 → ∃ x ∈ l, b ∈ (g x).1 := by
  intro l
  induction l with
  | nil => intro b hb; simp [runSteps] at hb
  | cons x t ih =>
    intro b hb
    rw [runSteps] at hb
    rcases h2 : (g x).2 with _ | e
    · rw [h2] at hb
      rcases List.mem_append.mp hb with h | h
      · exact ⟨x, List.mem_cons_self _ _, h⟩
      · rcases ih b h with ⟨y, hy, hby⟩
        exact ⟨y, List.mem_cons_of_mem _ hy, hby⟩
    · rw [h2] at hb
      exact ⟨x, List.mem_cons_self _ _, hb⟩

/-- A demonstration response producer: prefix the user text. -/
def llmDemo : String → Option String :=
  fun t => some ("re:" ++ t)

/-- One instagram payload with message events from two distinct senders
A and B in one entry. -/
def payloadTwoSenders : JPayload :=
  { object := some "instagram",
    entry := some [{ messaging := some [evA, evB], changes := none }] }

/-- C9: in the part_004 variant, every Graph API send of a request is
addressed to the sender of the first messaging item of the first entry
(or unknown when absent), never to the sender of the event that produced
the reply; on the concrete two-sender payload, the reply to the message
from B is sent to A. -/
theorem c9_replies_to_first_sender :
    (∀ (llm : String → Option String) (busId : String) (p : JPayload)
        (pr : String × String),
      pr ∈ (part004Handle llm busId p).sends → pr.1 = firstSender p) ∧
    (part004Handle llmDemo "" payloadTwoSenders).sends =
      [("A", "re:hi"), ("A", "re:yo")] := by
  constructor
  · intro llm busId p pr hpr
    unfold part004Handle at hpr
    rcases hdet : detectWebhookPlatform p.object with _ | pf
    · rw [hdet] at hpr
      simp at hpr
    · rw [hdet] at hpr
      simp only [] at hpr
      rcases mem_runSteps _ _ _ hpr with ⟨e, _, hin⟩
      rcases List.mem_map.mp hin with ⟨m, _, rfl⟩
      rfl
  · rfl

/-- C9 witness: the reply produced for the message from B is sent to the
first sender A. -/
theorem c9_replies_to_first_sender_witness :
    ("A", "re:yo").1 = firstSender payloadTwoSenders :=
  c9_replies_to_first_sender.1 llmDemo "" payloadTwoSenders ("A", "re:yo")
    (by decide)

/-! ### C10: verify tokens of the env-configured variants -/

/-- C10: the env-variant verify-token set always contains the configured
access-token value (META_ACCESS_TOKEN in part_003/part_004,
INSTAGRAM_ACCESS_TOKEN in scripts/server.ts) and contains the empty
string whenever META_VERIFY_TOKEN is unset; hence the GET handshake with
hub.mode subscribe succeeds with the access token, and with an empty
hub.verify_token when the verify-token variable is unset. -/
theorem c10_env_token_set (env : EnvCfg) (challenge : Option String) :
    jsOr env.accessToken "" ∈ getVerifyTokensEnv env ∧
    (env.metaVerifyToken = none → "" ∈ getVerifyTokensEnv env) ∧
    handleWebhookVerificationEnv env (some "subscribe")
        (some (jsOr env.accessToken "")) challenge = (200, challenge) ∧
    (env.metaVerifyToken = none →
      handleWebhookVerificationEnv env (some "subscribe") (some "") challenge =
        (200, challenge)) := by
  have hshape : getVerifyTokensEnv env =
      jsOr env.metaVerifyToken "" ::
        (if jsOr env.accessToken "" = jsOr env.metaVerifyToken "" then []
         else [jsOr env.accessToken ""]) := by
    simp [getVerifyTokensEnv, dedupFirst, dedupFirstAux]
  have hmem : jsOr env.accessToken "" ∈ getVerifyTokensEnv env := by
    rw [hshape]
    by_cases h : jsOr env.accessToken "" = jsOr env.metaVerifyToken ""
    · rw [h]
      exact List.mem_cons_self _ _
    · rw [if_neg h]
      exact List.mem_cons_of_mem _ (List.mem_cons_self _ _)
  have hvnone : env.metaVerifyToken = none → "" ∈ getVerifyTokensEnv env := by
    intro hv
    rw [hshape, hv]
    exact List.mem_cons_self _ _
  refine ⟨hmem, hvnone, ?_, ?_⟩
  · unfold handleWebhookVerificationEnv
    rw [if_pos ⟨rfl, jsOr env.accessToken "", hmem, rfl⟩]
  · intro hv
    unfold handleWebhookVerificationEnv
    rw [if_pos ⟨rfl, "", hvnone hv, rfl⟩]

/-- C10 witness: with META_VERIFY_TOKEN unset and the access token PAT,
both the PAT handshake and the empty-token handshake answer 200 with the
challenge. -/
theorem c10_env_token_set_witness :
    handleWebhookVerificationEnv { metaVerifyToken := none, accessToken := some "PAT" }
        (some "subscribe") (some "PAT") (some "xyz") = (200, some "xyz") ∧
    handleWebhookVerificationEnv { metaVerifyToken := none, accessToken := some "PAT" }
        (some "subscribe") (some "") (some "xyz") = (200, some "xyz") := by
  have h := c10_env_token_set
    { metaVerifyToken := none, accessToken := some "PAT" } (some "xyz")
  exact ⟨h.2.2.1, h.2.2.2 rfl⟩

/-! ### C1: processing on invalid signatures (code bug) -/

/-- A syntactically well-formed but wrong signature header. -/
def allZeroSig : String :=
  "sha256=" ++ String.mk (List.replicate 64 '0')

/-- The messaging event of the failing input. -/
def msgUser123 : MsgEvent :=
  { sender := some { id := some "user123" },
    recipient := some { id := some "page456" }, timestamp := some 5,
    message := some { mid := some "mid.123", text := some "Hello, World!" },
    postback := none, hasRead := false, hasDelivery := false }

/-- The failing POST body: one page entry with one message. -/
def bodyC1 : JPayload :=
  { object := some "page",
    entry := some [{ messaging := some [msgUser123], changes := none }] }

/-- C1 (code bug): a POST whose signature header does not verify is
still fully processed by the part_002 server.  verifySignature returns
false for the all-zero header, but body-parser ignores the value the
verify callback returns (only a throw aborts the request), so the route
handler runs and invokes the OpenClaw hook once for the contained
message event.  The scripts/server.ts variant cited by the claim
performs no signature check at all. -/
theorem c1_invalid_signature_still_processed :
    verifySignature testHmac (some "test_secret") (some allZeroSig) "RAWBODY" =
      .ok false ∧
    part002Post testHmac (some "test_secret") "RAWBODY" (some allZeroSig) bodyC1 =
      { status := 200,
        hooks := [{ etype := "messaging", senderId := some "user123",
                    messageType := some "message", changedField := none }],
        err := none } :=
  ⟨rfl, rfl⟩

end MetaWebhook
